import Mathlib

/-!
Verification of the core migration-state engine of the qase-workspace-migration
repository: a shallow embedding of the mapping store, stats recorder, retry
wrapper, id hashing, chunking, orchestrator step structure, author resolution
and attachment-hash rewriting, together with theorems settling the frozen
claims about them.
-/

namespace QaseMigration

/-! ## Python-style association-list dictionaries

Python `dict` objects are modelled as association lists with first-match
lookup; insertion replaces an existing binding in place (preserving order)
or appends a fresh one, exactly like CPython assignment semantics. -/

/-- First-match lookup, modelling Python `d.get(k)` / `d[k]` read access. -/
def dictGet {κ ν : Type} [DecidableEq κ] (d : List (κ × ν)) (k : κ) : Option ν :=
  (d.find? (fun p => p.1 = k)).map (·.2)

/-- Assignment `d[k] = v`: replace the existing binding in place, else append. -/
def dictSet {κ ν : Type} [DecidableEq κ] : List (κ × ν) → κ → ν → List (κ × ν)
  | [], k, v => [(k, v)]
  | (k₀, v₀) :: rest, k, v =>
    if k₀ = k then (k₀, v) :: rest else (k₀, v₀) :: dictSet rest k v

/-- Python `d.update(d2)`: assign every binding of `d2` into `d` in order. -/
def dictUpdate {κ ν : Type} [DecidableEq κ] (d d₂ : List (κ × ν)) : List (κ × ν) :=
  d₂.foldl (fun acc kv => dictSet acc kv.1 kv.2) d

theorem dictGet_dictSet_self {κ ν : Type} [DecidableEq κ]
    (d : List (κ × ν)) (k : κ) (v : ν) : dictGet (dictSet d k v) k = some v := by
  induction d with
  | nil => simp [dictGet, dictSet, List.find?]
  | cons hd tl ih =>
    obtain ⟨k₀, v₀⟩ := hd
    by_cases hk : k₀ = k
    · subst hk; simp [dictGet, dictSet, List.find?]
    · simpa [dictGet, dictSet, List.find?, hk] using ih

/-- Python `str.lower()` modelled over the character list (kernel-reducible,
unlike `String.toLower`). -/
def pyLower (s : String) : String := String.mk (s.data.map Char.toLower)

/-- Python `str.startswith(p)` modelled over character lists. -/
def strStartsWith (s p : String) : Bool := p.data.isPrefixOf s.data

/-- Boolean contiguous-sublist test on lists of characters. -/
def listIsInfixOf {α : Type} [BEq α] : List α → List α → Bool
  | needle, [] => needle.isEmpty
  | needle, h :: t => needle.isPrefixOf (h :: t) || listIsInfixOf needle t

/-- Case-insensitive membership of the literal word used by the retry wrapper:
`needle in haystack.lower()` for a fixed needle. -/
def strContainsLower (haystack needle : String) : Bool :=
  listIsInfixOf needle.data (pyLower haystack).data

/-- Python truthiness of an optional string (`None` and `""` are falsy). -/
def strTruthy : Option String → Bool
  | none => false
  | some s => !(s == "")

/-- Python truthiness of an optional integer (`None` and `0` are falsy). -/
def intTruthy : Option Int → Bool
  | none => false
  | some n => !(n == 0)

/-! ## `preserve_or_hash_id` (migration/utils.py)

The source reads the clock (`time.time()`) and an MD5 digest; both are
external inputs, passed here as explicit parameters: `timeMs` is
`int(time.time() * 1000)` and `md5head8` gives `int(md5(str(id))[:8], 16)`. -/

/-- `MAX_SAFE_ID = 2**31 - 1` from migration/utils.py. -/
def MAX_SAFE_ID : Nat := 2 ^ 31 - 1

/-- Shallow embedding of `preserve_or_hash_id(original_id, preserve_ids)`:
preserve the id when it fits in int32 range and preservation is requested,
otherwise derive a clock- or hash-based id reduced mod `MAX_SAFE_ID`. -/
def preserve_or_hash_id (timeMs : Nat) (md5head8 : Nat → Nat)
    (original_id : Nat) (preserve_ids : Bool) : Nat :=
  if original_id ≤ MAX_SAFE_ID then
    if preserve_ids then original_id
    else timeMs % MAX_SAFE_ID
  else
    md5head8 original_id % MAX_SAFE_ID

/-! ## `MigrationStats` (migration/utils.py)

`add_entity` mutates two parallel dictionaries; the `+=` on
`entities_created` raises `KeyError` when the key is present in
`entities_processed` but absent from `entities_created`, so the embedding
returns `Except`. -/

structure MigrationStats where
  entities_processed : List (String × Int)
  entities_created : List (String × Int)
  errors : List String
deriving DecidableEq

/-- Fresh stats object (`MigrationStats.__init__`). -/
def MigrationStats.init : MigrationStats := ⟨[], [], []⟩

/-- Shallow embedding of `MigrationStats.add_entity`: accumulate when the
entity type is already tracked, otherwise initialize both counters. -/
def add_entity (s : MigrationStats) (entity_type : String)
    (source_count target_count : Int) : Except String MigrationStats :=
  if (dictGet s.entities_processed entity_type).isSome then
    match dictGet s.entities_processed entity_type,
          dictGet s.entities_created entity_type with
    | some p, some c =>
      .ok { s with
            entities_processed := dictSet s.entities_processed entity_type (p + source_count),
            entities_created := dictSet s.entities_created entity_type (c + target_count) }
    | _, _ => .error "KeyError"
  else
    .ok { s with
          entities_processed := dictSet s.entities_processed entity_type source_count,
          entities_created := dictSet s.entities_created entity_type target_count }

/-! ## `chunks` (migration/utils.py)

`for i in range(0, len(lst), n): yield lst[i:i + n]` — successive slices of
width `n`.  The repository only ever calls it with `n = 500`; a zero step
would raise `ValueError` in Python and is mapped to the empty list here. -/

/-- Shallow embedding of `chunks(lst, n)`. -/
def chunks {α : Type} : List α → Nat → List (List α)
  | [], _ => []
  | _ :: _, 0 => []
  | x :: xs, n + 1 =>
    ((x :: xs).take (n + 1)) :: chunks ((x :: xs).drop (n + 1)) (n + 1)
termination_by l _ => l.length
decreasing_by
  simp only [List.length_drop, List.length_cons]
  omega

/-- The per-run send loop of `migrate_results`: one `create_results_v2` bulk
request per chunk, skipping empty chunks (`if not chunk: continue`).  The
returned list holds the payload of each request issued, in order. -/
def results_bulk_requests {α : Type} (chunk_list : List (List α)) : List (List α) :=
  chunk_list.filter (fun c => !c.isEmpty)

theorem chunks_join {α : Type} (n : Nat) (lst : List α) :
    (chunks lst (n + 1)).flatten = lst := by
  suffices H : ∀ len (l : List α), l.length = len → (chunks l (n + 1)).flatten = l from
    H _ lst rfl
  intro len
  induction len using Nat.strong_induction_on with
  | _ len ih =>
    intro l hl
    cases l with
    | nil => simp [chunks]
    | cons x xs =>
      rw [chunks]
      simp only [List.flatten_cons]
      have hlen : ((x :: xs).drop (n + 1)).length < len := by
        simp only [List.length_drop]
        subst hl
        simp only [List.length_cons]
        omega
      rw [ih _ hlen _ rfl]
      exact List.take_append_drop _ _

theorem chunks_length_le {α : Type} (n : Nat) (lst : List α) :
    ∀ c ∈ chunks lst (n + 1), c.length ≤ n + 1 := by
  suffices H : ∀ len (l : List α), l.length = len →
      ∀ c ∈ chunks l (n + 1), c.length ≤ n + 1 from H _ lst rfl
  intro len
  induction len using Nat.strong_induction_on with
  | _ len ih =>
    intro l hl
    cases l with
    | nil => simp [chunks]
    | cons x xs =>
      rw [chunks]
      intro c hc
      rcases List.mem_cons.mp hc with h | h
      · subst h
        simp
      · have hlen : ((x :: xs).drop (n + 1)).length < len := by
          simp only [List.length_drop]
          subst hl
          simp only [List.length_cons]
          omega
        exact ih _ hlen _ rfl c h

theorem chunks_ne_nil {α : Type} (n : Nat) (lst : List α) :
    ∀ c ∈ chunks lst (n + 1), c ≠ [] := by
  suffices H : ∀ len (l : List α), l.length = len →
      ∀ c ∈ chunks l (n + 1), c ≠ [] from H _ lst rfl
  intro len
  induction len using Nat.strong_induction_on with
  | _ len ih =>
    intro l hl
    cases l with
    | nil => simp [chunks]
    | cons x xs =>
      rw [chunks]
      intro c hc
      rcases List.mem_cons.mp hc with h | h
      · subst h; simp [List.take]
      · have hlen : ((x :: xs).drop (n + 1)).length < len := by
          simp only [List.length_drop]
          subst hl
          simp only [List.length_cons]
          omega
        exact ih _ hlen _ rfl c h

/-! ## `retry_with_backoff` (migration/utils.py)

The wrapped function is modelled as a map from attempt index to outcome:
either a returned value or a raised exception.  `ApiException` carries its
HTTP status and optional response body; any other exception is `other`.
The target function's `__name__` is passed as `funcName` (`none` models an
object without a `__name__` attribute).  The result is the Python return
value (`some v` for a real result, `none` for the suppressed-404 `None`)
or the propagated exception, paired with the number of calls made. -/

inductive PyExc where
  | api (status : Int) (body : Option String)
  | other (msg : String)
deriving DecidableEq

/-- The `is_attachment_error` computation inside `retry_with_backoff`:
a 404 whose body mentions "attachment" (checked case-insensitively via the
parsed or raw body) or, failing that, whose function name contains
"attachment". -/
def is_attachment_error (status : Int) (body : Option String)
    (funcName : Option String) : Bool :=
  status == 404 &&
    ((match body with
      | some b => strContainsLower b "attachment"
      | none => false) ||
     (match funcName with
      | some n => strContainsLower n "attachment"
      | none => false))

/-- One pass of the `for attempt in range(max_retries)` loop, recursing on the
number of remaining iterations; `lastE` threads `last_exception`. -/
def retryLoop {α : Type} (f : Nat → Except PyExc α) (funcName : Option String)
    (max_retries : Nat) : Nat → Nat → Option PyExc → Except PyExc (Option α) × Nat
  | 0, _, lastE =>
    -- loop exhausted: `if last_exception: raise last_exception; return None`
    (match lastE with
     | some e => .error e
     | none => .ok none, 0)
  | remaining + 1, attempt, _ =>
    match f attempt with
    | .ok v => (.ok (some v), 1)
    | .error e =>
      match e with
      | .api status body =>
        if (status = 429 ∨ 500 ≤ status) ∧ attempt < max_retries - 1 then
          let r := retryLoop f funcName max_retries remaining (attempt + 1) (some e)
          (r.1, r.2 + 1)
        else if is_attachment_error status body funcName then
          (.ok none, 1)
        else
          (.error e, 1)
      | .other _ =>
        if attempt < max_retries - 1 then
          let r := retryLoop f funcName max_retries remaining (attempt + 1) (some e)
          (r.1, r.2 + 1)
        else
          (.error e, 1)

/-- Shallow embedding of `retry_with_backoff(func, max_retries, base_delay)`;
the backoff sleeps are timing-only and do not affect the result. -/
def retry_with_backoff {α : Type} (f : Nat → Except PyExc α)
    (funcName : Option String) (max_retries : Nat) : Except PyExc (Option α) × Nat :=
  retryLoop f funcName max_retries max_retries 0 none

/-! ## Author resolution in `transform_case_data` (migration/create/cases.py)

Only the author-id computation (lines 105-127) is embedded: the surrounding
payload construction threads it through unchanged.  `user_uuid_mapping` is
read with `getattr(mappings, 'user_uuid_mapping', {})`, so an absent
attribute (`none`) degrades to the empty dict; but the fallback branch calls
`mappings.get_user_id(...)`, a method `MigrationMappings` never defines, so
reaching it raises `AttributeError` (only `ValueError`/`TypeError` are
caught). -/

/-- Python `member_id or created_by or author_id` over optional ints. -/
def pyOr3 (a b c : Option Int) : Option Int :=
  if intTruthy a then a else if intTruthy b then b else c

/-- Shallow embedding of the `target_author_id` computation of
`transform_case_data`. -/
def resolve_author_id (user_uuid_mapping : Option (List (String × Int)))
    (author_uuid : Option String)
    (member_id created_by author_id : Option Int) : Except String Int :=
  if strTruthy author_uuid then
    let uuidMap := user_uuid_mapping.getD []
    .ok (((uuidMap.find? (fun p => some p.1 = author_uuid)).map (·.2)).getD 1)
  else
    let source_user_id := pyOr3 member_id created_by author_id
    if intTruthy source_user_id then
      match source_user_id with
      | some v =>
        if v = 0 then .ok 1
        else .error "AttributeError: MigrationMappings has no attribute get_user_id"
      | none => .ok 1
    else
      .ok 1

/-! ## `migrate_milestones` (migration/create/milestones.py)

The target API is abstracted as `createEnv : Nat → Option Int`, giving for
the k-th `create_milestone` call the target id extracted from its response
(`none` models a falsy or id-less response).  `created_calls` logs the
source id of every milestone for which a create request was issued.
The recursion over children is bounded by a fuel argument; the repository's
extraction produces acyclic parent links, for which the fuel
`milestones_list.length` used by `migrate_milestones` is never exhausted. -/

structure MilestoneRec where
  id : Int
  parent_id : Option Int
  title : String
deriving DecidableEq

structure MilestoneMigState where
  callCount : Nat
  created_calls : List Int
  milestone_mapping : List (Int × Int)
deriving DecidableEq

/-- `not m.get('parent_id')`: missing or zero parent id marks a root. -/
def parentFalsy (m : MilestoneRec) : Bool :=
  match m.parent_id with
  | none => true
  | some v => v == 0

/-- Shallow embedding of `create_milestone_recursive`: create the milestone,
record the mapping when the response yields a target id, then recurse into
the children (`parent_id == source_id`). -/
def create_milestone_recursive (createEnv : Nat → Option Int)
    (milestones_list : List MilestoneRec) :
    Nat → MilestoneRec → MilestoneMigState → MilestoneMigState
  | 0, _, st => st
  | fuel + 1, m, st =>
    let st₁ : MilestoneMigState :=
      ⟨st.callCount + 1, st.created_calls ++ [m.id], st.milestone_mapping⟩
    match createEnv st.callCount with
    | some target_id =>
      let st₂ := { st₁ with milestone_mapping := dictSet st₁.milestone_mapping m.id target_id }
      (milestones_list.filter (fun c => c.parent_id == some m.id)).foldl
        (fun acc c => create_milestone_recursive createEnv milestones_list fuel c acc) st₂
    | none => st₁

/-- Shallow embedding of `migrate_milestones`: create every root milestone
recursively (no consultation of the store), then merge the in-memory result
into `mappings.milestones[project_code_source]`.  Returns the updated store
field, the in-memory result map, and the create-call log. -/
def migrate_milestones (createEnv : Nat → Option Int)
    (extracted : List MilestoneRec) (project_code_source : String)
    (store_milestones : List (String × List (Int × Int))) :
    List (String × List (Int × Int)) × List (Int × Int) × List Int :=
  let roots := extracted.filter parentFalsy
  let final := roots.foldl
    (fun acc m => create_milestone_recursive createEnv extracted extracted.length m acc)
    ⟨0, [], []⟩
  let store₁ :=
    if (dictGet store_milestones project_code_source).isSome then store_milestones
    else dictSet store_milestones project_code_source []
  let existing := (dictGet store₁ project_code_source).getD []
  let store₂ := dictSet store₁ project_code_source (dictUpdate existing final.milestone_mapping)
  (store₂, final.milestone_mapping, final.created_calls)

/-! ## Orchestrator step structure of `main` (migrate_workspace.py)

The step sequence from STEP 3 onward (lines 276-447): the workspace-level
custom-fields, shared-parameters and attachments steps run bare inside the
top-level `try`, while every per-project entity step has its own
`try/except` that logs, substitutes an empty mapping, saves the store and
continues.  An exception in a bare step propagates to the top-level handler,
which saves the store and calls `sys.exit(1)`. -/

inductive StepId where
  | custom_fields | shared_parameters | attachments_ws
  | milestones | configurations | environments | shared_steps_s | suites
  | cases | plans | runs | results
deriving DecidableEq

/-- Whether the step's migrator call sits inside its own `try/except` in
`main` (read off the source: the three workspace-level steps do not). -/
def wrappedInTry : StepId → Bool
  | .custom_fields => false
  | .shared_parameters => false
  | .attachments_ws => false
  | _ => true

/-- The per-project step sequence of the `for project in projects` loop. -/
def projectSteps : List StepId :=
  [.milestones, .configurations, .environments, .shared_steps_s, .suites,
   .cases, .plans, .runs, .results]

/-- The step list of `main` from STEP 3 onward, each step tagged with its
project index (`none` for workspace-level steps). -/
def mainSteps (nProjects : Nat) : List (Option Nat × StepId) :=
  [(none, .custom_fields), (none, .shared_parameters), (none, .attachments_ws)] ++
    (List.range nProjects).flatMap (fun p => projectSteps.map (fun s => (some p, s)))

structure RunOutcome where
  attempted : List (Option Nat × StepId)
  saves : Nat
  exitCode : Nat
deriving DecidableEq

/-- Drive the remaining steps given which steps raise: a successful step is
followed by `mappings.save_to_file`; a raising step inside its own
`try/except` logs, yields an empty mapping, saves and continues; a raising
bare step reaches the top-level handler which saves and exits 1.  Normal
completion performs the final save (line 462) and exits 0. -/
def runStepList (raises : Option Nat × StepId → Bool) :
    List (Option Nat × StepId) → RunOutcome
  | [] => ⟨[], 1, 0⟩
  | s :: rest =>
    if raises s then
      if wrappedInTry s.2 then
        let o := runStepList raises rest
        ⟨s :: o.attempted, o.saves + 1, o.exitCode⟩
      else
        ⟨[s], 1, 1⟩
    else
      let o := runStepList raises rest
      ⟨s :: o.attempted, o.saves + 1, o.exitCode⟩

/-- The orchestrator run over `mainSteps nProjects`. -/
def migrationMain (nProjects : Nat) (raises : Option Nat × StepId → Bool) : RunOutcome :=
  runStepList raises (mainSteps nProjects)

/-! ## `MigrationMappings.save_to_file` / `load_from_file` (migration/utils.py)

Python dictionary keys may be integers or strings; JSON object keys are
always strings, and `json.dump` stringifies integer keys at every nesting
level.  `save_to_file` writes the fourteen entity maps (and not
`target_workspace_hash`); `load_from_file` assigns each map back as parsed
(string keys, no re-coercion) and reads `target_workspace_hash` with a
`.get` that yields `None` for a key the file does not contain. -/

inductive PyKey where
  | intK (n : Int)
  | strK (s : String)
deriving DecidableEq

inductive PyVal where
  | int (n : Int)
  | str (s : String)
  | dict (entries : List (PyKey × PyVal))
  | none

inductive JVal where
  | num (n : Int)
  | str (s : String)
  | obj (entries : List (String × JVal))
  | null

/-- How `json.dump` renders a dictionary key. -/
def pyKeyStr : PyKey → String
  | .intK n => toString n
  | .strK s => s

mutual
/-- JSON serialization of a Python value (`json.dump`). -/
def pyToJson : PyVal → JVal
  | .int n => .num n
  | .str s => .str s
  | .none => .null
  | .dict es => .obj (pyEntriesToJson es)

def pyEntriesToJson : List (PyKey × PyVal) → List (String × JVal)
  | [] => []
  | (k, v) :: rest => (pyKeyStr k, pyToJson v) :: pyEntriesToJson rest
end

mutual
/-- JSON parsing back into Python values (`json.load`): every object key
comes back as a string. -/
def jsonToPy : JVal → PyVal
  | .num n => .int n
  | .str s => .str s
  | .null => .none
  | .obj es => .dict (jsonEntriesToPy es)

def jsonEntriesToPy : List (String × JVal) → List (PyKey × PyVal)
  | [] => []
  | (k, v) :: rest => (.strK k, jsonToPy v) :: jsonEntriesToPy rest
end

/-- The net effect of a dump/load round trip on one entity map: keys are
stringified at every level, values survive. -/
def stringifyEntries (d : List (PyKey × PyVal)) : List (PyKey × PyVal) :=
  jsonEntriesToPy (pyEntriesToJson d)

/-- The value-level dump/load round trip. -/
def stringifyVal (v : PyVal) : PyVal :=
  jsonToPy (pyToJson v)

structure MigrationMappings where
  projects : List (PyKey × PyVal)
  suites : List (PyKey × PyVal)
  cases : List (PyKey × PyVal)
  runs : List (PyKey × PyVal)
  milestones : List (PyKey × PyVal)
  configurations : List (PyKey × PyVal)
  configuration_groups : List (PyKey × PyVal)
  environments : List (PyKey × PyVal)
  shared_steps : List (PyKey × PyVal)
  shared_parameters : List (PyKey × PyVal)
  custom_fields : List (PyKey × PyVal)
  users : List (PyKey × PyVal)
  attachments : List (PyKey × PyVal)
  plans : List (PyKey × PyVal)
  target_workspace_hash : Option String

/-- `MigrationMappings.__init__`: all maps empty, hash `None`. -/
def MigrationMappings.init : MigrationMappings :=
  ⟨[], [], [], [], [], [], [], [], [], [], [], [], [], [], Option.none⟩

/-- Shallow embedding of `save_to_file`: the serialized JSON document.
`target_workspace_hash` is not part of `mappings_dict`. -/
def save_to_file (m : MigrationMappings) : List (String × JVal) :=
  [("projects", .obj (pyEntriesToJson m.projects)),
   ("suites", .obj (pyEntriesToJson m.suites)),
   ("cases", .obj (pyEntriesToJson m.cases)),
   ("runs", .obj (pyEntriesToJson m.runs)),
   ("milestones", .obj (pyEntriesToJson m.milestones)),
   ("configurations", .obj (pyEntriesToJson m.configurations)),
   ("configuration_groups", .obj (pyEntriesToJson m.configuration_groups)),
   ("environments", .obj (pyEntriesToJson m.environments)),
   ("shared_steps", .obj (pyEntriesToJson m.shared_steps)),
   ("shared_parameters", .obj (pyEntriesToJson m.shared_parameters)),
   ("custom_fields", .obj (pyEntriesToJson m.custom_fields)),
   ("users", .obj (pyEntriesToJson m.users)),
   ("attachments", .obj (pyEntriesToJson m.attachments)),
   ("plans", .obj (pyEntriesToJson m.plans))]

/-- `mappings_dict.get(key, {})` for a map-valued field. -/
def jsonGetDict (j : List (String × JVal)) (k : String) : List (PyKey × PyVal) :=
  match dictGet j k with
  | some (.obj es) => jsonEntriesToPy es
  | _ => []

/-- Shallow embedding of `load_from_file` on an existing file parsed to `j`,
overwriting the fields of `m` exactly as the assignments do
(`target_workspace_hash` via `.get`, which yields `None` when absent). -/
def load_from_file (m : MigrationMappings) (j : List (String × JVal)) : MigrationMappings :=
  { m with
    projects := jsonGetDict j "projects"
    suites := jsonGetDict j "suites"
    cases := jsonGetDict j "cases"
    runs := jsonGetDict j "runs"
    milestones := jsonGetDict j "milestones"
    configurations := jsonGetDict j "configurations"
    configuration_groups := jsonGetDict j "configuration_groups"
    environments := jsonGetDict j "environments"
    shared_steps := jsonGetDict j "shared_steps"
    shared_parameters := jsonGetDict j "shared_parameters"
    custom_fields := jsonGetDict j "custom_fields"
    users := jsonGetDict j "users"
    attachments := jsonGetDict j "attachments"
    plans := jsonGetDict j "plans"
    target_workspace_hash :=
      match dictGet j "target_workspace_hash" with
      | some (.str s) => some s
      | _ => Option.none }

/-! ## `replace_attachment_hashes_in_text` (migration/transform/attachments.py)

The function applies two `re.sub` passes: first the full-URL pattern
`(https://[^/]+/public/team/)(hex)(/attachment/)(hex)(/[^\x29]+)`, then the
bare pattern `(/attachment/)(hex)(/)`, both case-insensitive with the hash
group `[a-f0-9]{32,64}`.  A text is modelled as its match decomposition: a
list of literal segments (touched by neither pattern), full-URL matches and
bare `/attachment/hash/` matches.  The second pass scans the output of the
first, so it re-examines the attachment-hash slot of already-rewritten full
URLs. -/

inductive TextPart where
  | lit (s : String)
  | full (pre ws att suf : String)
  | bare (att : String)

/-- Renders a part back to text: `full pre ws att suf` stands for
`pre ++ ws ++ "/attachment/" ++ att ++ suf`, `bare att` for
`"/attachment/" ++ att ++ "/"`. -/
def renderPart : TextPart → String
  | .lit s => s
  | .full pre ws att suf => pre ++ ws ++ "/attachment/" ++ att ++ suf
  | .bare att => "/attachment/" ++ att ++ "/"

/-- A hash token the patterns accept: 32-64 characters from
`[a-f0-9]`, case-insensitively. -/
def isHexHashTok (s : String) : Bool :=
  decide (32 ≤ s.length) && decide (s.length ≤ 64) &&
    s.toList.all (fun c =>
      (decide ('0' ≤ c) && decide (c ≤ '9')) ||
      (decide ('a' ≤ c) && decide (c ≤ 'f')) ||
      (decide ('A' ≤ c) && decide (c ≤ 'F')))

/-- The hash lookup both substitution callbacks perform on the lowercased
matched hash: `attachment_mapping.get(old)` first, then a linear scan
comparing each key lowercased. -/
def lookup_hash (mapping : List (String × String)) (old : String) : Option String :=
  match dictGet mapping old with
  | some v => some v
  | Option.none => (mapping.find? (fun kv => pyLower kv.1 = old)).map (·.2)

/-- The `replace_full_url` callback of the first pass: lowercase the matched
attachment hash, look it up, and on success rewrite both the workspace hash
(when a truthy target workspace hash is available) and the attachment hash;
on failure return the whole match unchanged. -/
def replace_full_url (mapping : List (String × String))
    (target_workspace_hash : Option String) : TextPart → TextPart
  | .full pre ws att suf =>
    match lookup_hash mapping (pyLower att) with
    | some newAtt =>
      let newWs := if strTruthy target_workspace_hash
                   then target_workspace_hash.getD ws else ws
      .full pre newWs newAtt suf
    | Option.none => .full pre ws att suf
  | p => p

/-- The `replace_hash` callback of the second pass, applied to every
`/attachment/hash/` occurrence of the first pass's output: bare matches and
the attachment-hash slot of full URLs whose suffix starts with `/` (the
slot only re-matches when it is still a hex token of matchable length). -/
def replace_hash (mapping : List (String × String)) : TextPart → TextPart
  | .bare att =>
    if isHexHashTok att then
      match lookup_hash mapping (pyLower att) with
      | some newAtt => .bare newAtt
      | Option.none => .bare att
    else .bare att
  | .full pre ws att suf =>
    if isHexHashTok att && strStartsWith suf "/" then
      match lookup_hash mapping (pyLower att) with
      | some newAtt => .full pre ws newAtt suf
      | Option.none => .full pre ws att suf
    else .full pre ws att suf
  | p => p

/-- Shallow embedding of `replace_attachment_hashes_in_text`: an empty
mapping (or empty text) returns the text untouched; otherwise the two
substitution passes run in sequence. -/
def replace_attachment_hashes_in_text (mapping : List (String × String))
    (target_workspace_hash : Option String) (parts : List TextPart) : List TextPart :=
  if mapping.isEmpty then parts
  else (parts.map (replace_full_url mapping target_workspace_hash)).map
    (replace_hash mapping)

/-! ## Theorems for the frozen claims -/

/-- C10: `preserve_or_hash_id` always returns an id of at most `2^31 - 1`,
and returns `original_id` unchanged whenever it is within that bound and
`preserve_ids` is set. -/
theorem preserve_or_hash_id_bounded (timeMs : Nat) (md5head8 : Nat → Nat)
    (original_id : Nat) (preserve_ids : Bool) :
    preserve_or_hash_id timeMs md5head8 original_id preserve_ids ≤ 2 ^ 31 - 1 ∧
    (original_id ≤ 2 ^ 31 - 1 → preserve_ids = true →
      preserve_or_hash_id timeMs md5head8 original_id preserve_ids = original_id) := by
  unfold preserve_or_hash_id MAX_SAFE_ID
  constructor
  · split
    · split
      · assumption
      · exact le_of_lt (Nat.mod_lt _ (by norm_num))
    · exact le_of_lt (Nat.mod_lt _ (by norm_num))
  · intro h hp
    rw [if_pos h, hp]
    simp

/-- Witness for C10 at a concrete input. -/
theorem preserve_or_hash_id_bounded_witness :
    preserve_or_hash_id 0 (fun n => n) 5 true ≤ 2 ^ 31 - 1 ∧
    preserve_or_hash_id 0 (fun n => n) 5 true = 5 :=
  ⟨(preserve_or_hash_id_bounded 0 (fun n => n) 5 true).1,
   (preserve_or_hash_id_bounded 0 (fun n => n) 5 true).2 (by norm_num) rfl⟩

/-- C7: two successive `add_entity` calls for the same entity type on a stats
object not yet tracking it accumulate to `p₁ + p₂` processed and `c₁ + c₂`
created. -/
theorem add_entity_accumulates (s : MigrationStats) (entity_type : String)
    (p₁ c₁ p₂ c₂ : Int)
    (habs : dictGet s.entities_processed entity_type = Option.none) :
    ∃ s₂,
      (add_entity s entity_type p₁ c₁).bind (fun s₁ => add_entity s₁ entity_type p₂ c₂) =
        .ok s₂ ∧
      dictGet s₂.entities_processed entity_type = some (p₁ + p₂) ∧
      dictGet s₂.entities_created entity_type = some (c₁ + c₂) := by
  have h1 : add_entity s entity_type p₁ c₁ =
      .ok { s with
            entities_processed := dictSet s.entities_processed entity_type p₁,
            entities_created := dictSet s.entities_created entity_type c₁ } := by
    unfold add_entity
    rw [habs]
    rfl
  refine ⟨{ s with
      entities_processed :=
        dictSet (dictSet s.entities_processed entity_type p₁) entity_type (p₁ + p₂),
      entities_created :=
        dictSet (dictSet s.entities_created entity_type c₁) entity_type (c₁ + c₂) },
    ?_, dictGet_dictSet_self _ _ _, dictGet_dictSet_self _ _ _⟩
  rw [h1]
  show add_entity _ entity_type p₂ c₂ = _
  unfold add_entity
  rw [show dictGet (dictSet s.entities_processed entity_type p₁) entity_type = some p₁ from
        dictGet_dictSet_self _ _ _,
      show dictGet (dictSet s.entities_created entity_type c₁) entity_type = some c₁ from
        dictGet_dictSet_self _ _ _]
  rfl

/-- Witness for C7: recording (10, 8) twice on fresh stats yields 20/16. -/
theorem add_entity_accumulates_witness :
    ∃ s₂,
      (add_entity MigrationStats.init "cases" 10 8).bind
        (fun s₁ => add_entity s₁ "cases" 10 8) = .ok s₂ ∧
      dictGet s₂.entities_processed "cases" = some (10 + 10) ∧
      dictGet s₂.entities_created "cases" = some (8 + 8) :=
  add_entity_accumulates MigrationStats.init "cases" 10 8 10 8 rfl

/-- C9: `migrate_results` splits each run's transformed results with
`chunks(lst, 500)` into consecutive sublists of length at most 500 whose
concatenation is the original list, and its send loop issues exactly one
bulk request per (necessarily non-empty) chunk. -/
theorem migrate_results_chunking {α : Type} (lst : List α) :
    (chunks lst 500).flatten = lst ∧
    (∀ c ∈ chunks lst 500, c.length ≤ 500) ∧
    results_bulk_requests (chunks lst 500) = chunks lst 500 := by
  refine ⟨chunks_join 499 lst, chunks_length_le 499 lst, ?_⟩
  unfold results_bulk_requests
  apply List.filter_eq_self.mpr
  intro c hc
  have hne := chunks_ne_nil 499 lst c hc
  cases c with
  | nil => exact absurd rfl hne
  | cons x xs => rfl

/-- Witness for C9 at a concrete list. -/
theorem migrate_results_chunking_witness :
    (chunks [1, 2, 3] 500).flatten = [1, 2, 3] ∧
    ([1, 2, 3] : List Nat) ∈ chunks [1, 2, 3] 500 ∧
    ([1, 2, 3] : List Nat).length ≤ 500 ∧
    results_bulk_requests (chunks [1, 2, 3] 500) = chunks ([1, 2, 3] : List Nat) 500 :=
  ⟨(migrate_results_chunking [1, 2, 3]).1, by simp [chunks],
   (migrate_results_chunking [1, 2, 3]).2.1 [1, 2, 3] (by simp [chunks]),
   (migrate_results_chunking [1, 2, 3]).2.2⟩

/-- C6: author resolution in `transform_case_data`.  A truthy `author_uuid`
absent from the uuid mapping does default to author 1, but a case carrying
only a nonzero `member_id` (or `created_by`/`author_id`) reaches the call
`mappings.get_user_id(...)` — a method `MigrationMappings` never defines —
so the transformation raises `AttributeError` instead of defaulting to the
fallback user id 1. -/
theorem transform_case_author_attribute_error :
    resolve_author_id Option.none (some "11111111-aaaa-bbbb-cccc-222222222222")
        Option.none Option.none Option.none = .ok 1 ∧
    resolve_author_id Option.none Option.none (some 5) Option.none Option.none =
      .error "AttributeError: MigrationMappings has no attribute get_user_id" :=
  ⟨rfl, rfl⟩

/-- Exceptions `retry_with_backoff` treats as transient: rate-limit or
server-side `ApiException`s and every non-HTTP exception. -/
def retryableExc : PyExc → Prop
  | .api status _ => status = 429 ∨ 500 ≤ status
  | .other _ => True

theorem is_attachment_error_of_ne (status : Int) (body funcName : Option String)
    (h : status ≠ 404) : is_attachment_error status body funcName = false := by
  unfold is_attachment_error
  have hb : (status == 404) = false := by simpa using h
  simp [hb]

theorem retryLoop_always_error {α : Type} (f : Nat → Except PyExc α)
    (name : Option String) (max_retries : Nat) (e : PyExc)
    (hf : ∀ i, f i = .error e) (he : retryableExc e) :
    ∀ remaining attempt lastE, remaining + attempt = max_retries → 1 ≤ remaining →
      retryLoop f name max_retries remaining attempt lastE = (.error e, remaining) := by
  intro remaining
  induction remaining with
  | zero => intro attempt lastE hsum h1; omega
  | succ r ih =>
    intro attempt lastE hsum _
    cases e with
    | api status body =>
      have hst : status = 429 ∨ 500 ≤ status := he
      show retryLoop f name max_retries (r + 1) attempt lastE = _
      rw [retryLoop, hf attempt]
      dsimp only
      by_cases hlt : attempt < max_retries - 1
      · rw [if_pos ⟨hst, hlt⟩]
        have hr : 1 ≤ r := by omega
        rw [ih (attempt + 1) (some (.api status body)) (by omega) hr]
      · rw [if_neg (fun hand => hlt hand.2)]
        have hr0 : r = 0 := by omega
        have hne : status ≠ 404 := by
          rcases hst with h | h
          · omega
          · omega
        rw [is_attachment_error_of_ne status body name hne]
        subst hr0
        simp
    | other msg =>
      show retryLoop f name max_retries (r + 1) attempt lastE = _
      rw [retryLoop, hf attempt]
      dsimp only
      by_cases hlt : attempt < max_retries - 1
      · rw [if_pos hlt]
        have hr : 1 ≤ r := by omega
        rw [ih (attempt + 1) (some (.other msg)) (by omega) hr]
      · rw [if_neg hlt]
        have hr0 : r = 0 := by omega
        subst hr0
        rfl

/-- C4: a function that always raises a retryable `ApiException` (429 or
≥500) or always raises a non-HTTP exception is called exactly `max_retries`
times and the last exception is re-raised; a function whose first call
raises a non-retryable, non-attachment `ApiException` (e.g. a plain 400) is
called exactly once and the exception propagates immediately. -/
theorem retry_with_backoff_retry_ceiling {α : Type} (f : Nat → Except PyExc α)
    (name : Option String) (max_retries : Nat) (hmr : 1 ≤ max_retries) :
    (∀ status body, (status = 429 ∨ 500 ≤ status) →
      (∀ i, f i = .error (.api status body)) →
      retry_with_backoff f name max_retries = (.error (.api status body), max_retries)) ∧
    (∀ msg, (∀ i, f i = .error (.other msg)) →
      retry_with_backoff f name max_retries = (.error (.other msg), max_retries)) ∧
    (∀ status body, ¬(status = 429 ∨ 500 ≤ status) →
      is_attachment_error status body name = false →
      f 0 = .error (.api status body) →
      retry_with_backoff f name max_retries = (.error (.api status body), 1)) := by
  refine ⟨?_, ?_, ?_⟩
  · intro status body hst hf
    exact retryLoop_always_error f name max_retries _ hf hst max_retries 0 Option.none
      (by omega) hmr
  · intro msg hf
    exact retryLoop_always_error f name max_retries _ hf trivial max_retries 0 Option.none
      (by omega) hmr
  · intro status body hst hatt hf0
    obtain ⟨r, rfl⟩ : ∃ r, max_retries = r + 1 := ⟨max_retries - 1, by omega⟩
    show retryLoop f name (r + 1) (r + 1) 0 Option.none = _
    rw [retryLoop, hf0]
    dsimp only
    rw [if_neg (fun hand => hst hand.1), hatt]
    simp

/-- Witness for C4: always-500, always-429 and always-network functions are
called exactly 3 of 3 times then raise, and a 400 raises after one call. -/
theorem retry_with_backoff_retry_ceiling_witness :
    retry_with_backoff (fun _ => (.error (.api 500 Option.none) : Except PyExc Nat))
        Option.none 3 = (.error (.api 500 Option.none), 3) ∧
    retry_with_backoff (fun _ => (.error (.api 429 Option.none) : Except PyExc Nat))
        Option.none 3 = (.error (.api 429 Option.none), 3) ∧
    retry_with_backoff (fun _ => (.error (.other "connection reset") : Except PyExc Nat))
        Option.none 3 = (.error (.other "connection reset"), 3) ∧
    retry_with_backoff (fun _ => (.error (.api 400 Option.none) : Except PyExc Nat))
        Option.none 3 = (.error (.api 400 Option.none), 1) :=
  ⟨(retry_with_backoff_retry_ceiling _ Option.none 3 (by norm_num)).1 500 Option.none
      (by norm_num) (fun _ => rfl),
   (retry_with_backoff_retry_ceiling _ Option.none 3 (by norm_num)).1 429 Option.none
      (by norm_num) (fun _ => rfl),
   (retry_with_backoff_retry_ceiling _ Option.none 3 (by norm_num)).2.1 "connection reset"
      (fun _ => rfl),
   (retry_with_backoff_retry_ceiling _ Option.none 3 (by norm_num)).2.2 400 Option.none
      (by norm_num) rfl rfl⟩

/-- C5: a 404 `ApiException` whose body mentions "attachment" or whose
target function name contains "attachment" is suppressed: the wrapper
returns `None` after a single call instead of raising. -/
theorem retry_with_backoff_attachment_404 {α : Type} (f : Nat → Except PyExc α)
    (name : Option String) (max_retries : Nat) (body : Option String)
    (hmr : 1 ≤ max_retries)
    (hf0 : f 0 = .error (.api 404 body))
    (hatt : is_attachment_error 404 body name = true) :
    retry_with_backoff f name max_retries = (.ok Option.none, 1) := by
  obtain ⟨r, rfl⟩ : ∃ r, max_retries = r + 1 := ⟨max_retries - 1, by omega⟩
  show retryLoop f name (r + 1) (r + 1) 0 Option.none = _
  rw [retryLoop, hf0]
  dsimp only
  rw [if_neg (fun hand => by rcases hand.1 with h | h <;> omega :
        ¬(((404 : Int) = 429 ∨ 500 ≤ (404 : Int)) ∧ 0 < r + 1 - 1)), hatt]
  simp

/-- Witness for C5: an attachment-flavoured 404 body yields `None` in one
call. -/
theorem retry_with_backoff_attachment_404_witness :
    retry_with_backoff
        (fun _ => (.error (.api 404 (some "Attachment not found")) : Except PyExc Nat))
        Option.none 3 = (.ok Option.none, 1) :=
  retry_with_backoff_attachment_404 _ Option.none 3 (some "Attachment not found")
    (by norm_num) rfl rfl

/-- C3 counterexample: an exception in the workspace-level custom-fields
step is not caught at step level; the run aborts with exit code 1 before any
downstream step (shared parameters, attachments, per-project steps) runs. -/
theorem orchestrator_no_isolation_for_custom_fields :
    (migrationMain 1 (fun s => s.2 == StepId.custom_fields)).exitCode = 1 ∧
    (migrationMain 1 (fun s => s.2 == StepId.custom_fields)).attempted =
      [(Option.none, StepId.custom_fields)] ∧
    (Option.none, StepId.shared_parameters) ∉
      (migrationMain 1 (fun s => s.2 == StepId.custom_fields)).attempted ∧
    (some 0, StepId.milestones) ∉
      (migrationMain 1 (fun s => s.2 == StepId.custom_fields)).attempted := by
  decide

theorem runStepList_all_wrapped (raises : Option Nat × StepId → Bool) :
    ∀ l : List (Option Nat × StepId),
      (∀ s ∈ l, raises s = true → wrappedInTry s.2 = true) →
      runStepList raises l = ⟨l, l.length + 1, 0⟩ := by
  intro l
  induction l with
  | nil => intro _; rfl
  | cons s rest ih =>
    intro h
    have hrest := ih (fun s' hs' => h s' (List.mem_cons_of_mem _ hs'))
    cases hr : raises s with
    | false => simp [runStepList, hr, hrest]
    | true =>
      have hw := h s (List.mem_cons_self _ _) hr
      simp [runStepList, hr, hw, hrest]

theorem runStepList_abort (raises : Option Nat × StepId → Bool) :
    ∀ (pre : List (Option Nat × StepId)) (s : Option Nat × StepId)
      (post : List (Option Nat × StepId)),
      (∀ s' ∈ pre, raises s' = true → wrappedInTry s'.2 = true) →
      raises s = true → wrappedInTry s.2 = false →
      runStepList raises (pre ++ s :: post) = ⟨pre ++ [s], pre.length + 1, 1⟩ := by
  intro pre
  induction pre with
  | nil =>
    intro s post _ hr hw
    simp [runStepList, hr, hw]
  | cons p pre' ih =>
    intro s post hpre hr hw
    have hrec := ih s post (fun s' hs' => hpre s' (List.mem_cons_of_mem _ hs')) hr hw
    cases hp : raises p with
    | false => simp [runStepList, hp, hrec]
    | true =>
      have hwp := hpre p (List.mem_cons_self _ _) hp
      simp [runStepList, hp, hwp, hrec]

/-- C3 amended: an exception inside any per-project migrator step is caught,
logged, treated as an empty mapping, the store is saved and the run
continues (a run whose failures are all in wrapped steps attempts every step
and exits 0, saving after each step plus once at the end); but an exception
in a workspace-level custom-fields, shared-parameters or attachments step —
the first step not wrapped in its own try/except — propagates to the
top-level handler, which saves the store once more and exits 1, skipping all
remaining steps. -/
theorem orchestrator_failure_semantics (nProjects : Nat)
    (raises : Option Nat × StepId → Bool) :
    ((∀ s ∈ mainSteps nProjects, raises s = true → wrappedInTry s.2 = true) →
      migrationMain nProjects raises =
        ⟨mainSteps nProjects, (mainSteps nProjects).length + 1, 0⟩) ∧
    (∀ pre s post, mainSteps nProjects = pre ++ s :: post →
      (∀ s' ∈ pre, raises s' = true → wrappedInTry s'.2 = true) →
      raises s = true → wrappedInTry s.2 = false →
      migrationMain nProjects raises = ⟨pre ++ [s], pre.length + 1, 1⟩) := by
  constructor
  · intro h
    exact runStepList_all_wrapped raises (mainSteps nProjects) h
  · intro pre s post hsplit hpre hr hw
    unfold migrationMain
    rw [hsplit]
    exact runStepList_abort raises pre s post hpre hr hw

/-- Witness for C3 amended: with no failing step every step of a one-project
run is attempted and the run exits 0; a failing attachments step aborts
with exit 1 after the two preceding workspace steps. -/
theorem orchestrator_failure_semantics_witness :
    migrationMain 1 (fun _ => false) =
      ⟨mainSteps 1, (mainSteps 1).length + 1, 0⟩ ∧
    migrationMain 1 (fun s => s.2 == StepId.attachments_ws) =
      ⟨[(Option.none, StepId.custom_fields), (Option.none, StepId.shared_parameters),
        (Option.none, StepId.attachments_ws)], 3, 1⟩ :=
  ⟨(orchestrator_failure_semantics 1 (fun _ => false)).1 (fun _ _ h => by cases h),
   (orchestrator_failure_semantics 1 (fun s => s.2 == StepId.attachments_ws)).2
     [(Option.none, StepId.custom_fields), (Option.none, StepId.shared_parameters)]
     (Option.none, StepId.attachments_ws)
     ((List.range 1).flatMap (fun p => projectSteps.map (fun st => (some p, st))))
     (by decide) (by decide) (by decide) (by decide)⟩

/-- C2 counterexample: a milestone whose source id 1 is already mapped in
the store (`mappings.milestones["P1"] = {1: 100}`) is still created —
`migrate_milestones` logs a create call for id 1 and overwrites the stored
mapping with the fresh target id 200 instead of copying the existing one. -/
theorem migrate_milestones_recreates_mapped :
    (migrate_milestones (fun _ => some 200) [⟨1, Option.none, "M1"⟩] "P1"
        [("P1", [(1, 100)])]).2.2 = [1] ∧
    (migrate_milestones (fun _ => some 200) [⟨1, Option.none, "M1"⟩] "P1"
        [("P1", [(1, 100)])]).2.1 = [(1, 200)] ∧
    dictGet ([("P1", [((1 : Int), (100 : Int))])]) "P1" = some [(1, 100)] ∧
    (migrate_milestones (fun _ => some 200) [⟨1, Option.none, "M1"⟩] "P1"
        [("P1", [(1, 100)])]).1 = [("P1", [(1, 200)])] := by
  refine ⟨rfl, rfl, rfl, rfl⟩

theorem create_milestone_recursive_calls_extend (createEnv : Nat → Option Int)
    (milestones_list : List MilestoneRec) :
    ∀ (fuel : Nat) (m : MilestoneRec) (st : MilestoneMigState),
      ∃ l, (create_milestone_recursive createEnv milestones_list fuel m st).created_calls =
        st.created_calls ++ l := by
  intro fuel
  induction fuel with
  | zero =>
    intro m st
    exact ⟨[], by simp [create_milestone_recursive]⟩
  | succ f ih =>
    intro m st
    have hfold : ∀ (cs : List MilestoneRec) (st' : MilestoneMigState),
        ∃ l, ((cs.foldl
            (fun acc c => create_milestone_recursive createEnv milestones_list f c acc)
            st').created_calls = st'.created_calls ++ l) := by
      intro cs
      induction cs with
      | nil => intro st'; exact ⟨[], by simp⟩
      | cons c cs' ihc =>
        intro st'
        obtain ⟨l₁, h₁⟩ :=
          ih c st'
        obtain ⟨l₂, h₂⟩ :=
          ihc (create_milestone_recursive createEnv milestones_list f c st')
        refine ⟨l₁ ++ l₂, ?_⟩
        rw [List.foldl_cons, h₂, h₁, List.append_assoc]
    rw [create_milestone_recursive]
    cases henv : createEnv st.callCount with
    | none => exact ⟨[m.id], rfl⟩
    | some target_id =>
      obtain ⟨l, hl⟩ := hfold
        (milestones_list.filter (fun c => c.parent_id == some m.id))
        ⟨st.callCount + 1, st.created_calls ++ [m.id],
          dictSet st.milestone_mapping m.id target_id⟩
      refine ⟨[m.id] ++ l, ?_⟩
      rw [hl, List.append_assoc]

theorem create_milestone_recursive_logs_self (createEnv : Nat → Option Int)
    (milestones_list : List MilestoneRec) (f : Nat) (m : MilestoneRec)
    (st : MilestoneMigState) :
    m.id ∈ (create_milestone_recursive createEnv milestones_list (f + 1) m st).created_calls := by
  rw [create_milestone_recursive]
  cases henv : createEnv st.callCount with
  | none => simp
  | some target_id =>
    have hfold : ∀ (cs : List MilestoneRec) (st' : MilestoneMigState),
        ∃ l', ((cs.foldl
            (fun acc c => create_milestone_recursive createEnv milestones_list f c acc)
            st').created_calls = st'.created_calls ++ l') := by
      intro cs
      induction cs with
      | nil => intro st'; exact ⟨[], by simp⟩
      | cons c cs' ihc =>
        intro st'
        obtain ⟨l₁, h₁⟩ :=
          create_milestone_recursive_calls_extend createEnv milestones_list f c st'
        obtain ⟨l₂, h₂⟩ :=
          ihc (create_milestone_recursive createEnv milestones_list f c st')
        refine ⟨l₁ ++ l₂, ?_⟩
        rw [List.foldl_cons, h₂, h₁, List.append_assoc]
    obtain ⟨l', hl'⟩ := hfold
      (milestones_list.filter (fun c => c.parent_id == some m.id))
      ⟨st.callCount + 1, st.created_calls ++ [m.id],
        dictSet st.milestone_mapping m.id target_id⟩
    rw [hl']
    simp

theorem foldl_create_milestone_mem (createEnv : Nat → Option Int)
    (milestones_list : List MilestoneRec) (f : Nat) :
    ∀ (roots : List MilestoneRec) (st : MilestoneMigState) (m : MilestoneRec),
      m ∈ roots →
      m.id ∈ ((roots.foldl
          (fun acc r => create_milestone_recursive createEnv milestones_list (f + 1) r acc)
          st).created_calls) := by
  intro roots
  induction roots with
  | nil => intro st m hm; cases hm
  | cons r rs ih =>
    intro st m hm
    rw [List.foldl_cons]
    rcases List.mem_cons.mp hm with h | h
    · subst h
      -- m.id enters the log when r is processed and folds only extend it
      have hself := create_milestone_recursive_logs_self createEnv milestones_list f m st
      have hfold : ∀ (cs : List MilestoneRec) (st' : MilestoneMigState),
          ∃ l', ((cs.foldl
              (fun acc c => create_milestone_recursive createEnv milestones_list (f + 1) c acc)
              st').created_calls = st'.created_calls ++ l') := by
        intro cs
        induction cs with
        | nil => intro st'; exact ⟨[], by simp⟩
        | cons c cs' ihc =>
          intro st'
          obtain ⟨l₁, h₁⟩ :=
            create_milestone_recursive_calls_extend createEnv milestones_list (f + 1) c st'
          obtain ⟨l₂, h₂⟩ :=
            ihc (create_milestone_recursive createEnv milestones_list (f + 1) c st')
          refine ⟨l₁ ++ l₂, ?_⟩
          rw [List.foldl_cons, h₂, h₁, List.append_assoc]
      obtain ⟨l', hl'⟩ := hfold rs
        (create_milestone_recursive createEnv milestones_list (f + 1) m st)
      rw [hl']
      exact List.mem_append_left _ hself
    · exact ih _ m h

/-- C2 amended: the milestone migrator (likewise the suite and case
migrators) never consults the Mapping Store before creating: every extracted
root milestone triggers a create call, even when its source id is already
mapped, and the freshly created mapping is merged over the stored one. -/
theorem migrate_milestones_always_creates (createEnv : Nat → Option Int)
    (extracted : List MilestoneRec) (project_code_source : String)
    (store_milestones : List (String × List (Int × Int))) (m : MilestoneRec)
    (hm : m ∈ extracted) (hroot : parentFalsy m = true) :
    m.id ∈ (migrate_milestones createEnv extracted project_code_source
      store_milestones).2.2 := by
  obtain ⟨f, hf⟩ : ∃ f, extracted.length = f + 1 := by
    cases extracted with
    | nil => cases hm
    | cons a l => exact ⟨l.length, rfl⟩
  unfold migrate_milestones
  dsimp only
  rw [hf]
  exact foldl_create_milestone_mem createEnv extracted f
    (extracted.filter parentFalsy) _ m (List.mem_filter.mpr ⟨hm, hroot⟩)

/-- Witness for C2 amended: the single extracted root milestone with source
id 1 gets a create call issued even against a store already mapping it. -/
theorem migrate_milestones_always_creates_witness :
    (1 : Int) ∈ (migrate_milestones (fun _ => some 300) [⟨1, Option.none, "M1"⟩] "P2"
      [("P2", [(1, 150)])]).2.2 :=
  migrate_milestones_always_creates (fun _ => some 300) [⟨1, Option.none, "M1"⟩] "P2"
    [("P2", [(1, 150)])] ⟨1, Option.none, "M1"⟩ (by simp) rfl

/-- C1 counterexample: saving a store whose `users` map holds the integer
key 7 and whose `target_workspace_hash` is set, then loading it into a fresh
store, does not restore the state: the integer-key lookup misses (the key
came back as the string "7") and the workspace hash is `None` because
`save_to_file` never writes it. -/
theorem save_load_not_roundtrip :
    dictGet ({ MigrationMappings.init with
        users := [(.intK 7, .int 9)],
        target_workspace_hash := some "wsh" } : MigrationMappings).users (.intK 7) =
      some (.int 9) ∧
    dictGet (load_from_file MigrationMappings.init
        (save_to_file { MigrationMappings.init with
          users := [(.intK 7, .int 9)],
          target_workspace_hash := some "wsh" })).users (.intK 7) = Option.none ∧
    ({ MigrationMappings.init with
        users := [(.intK 7, .int 9)],
        target_workspace_hash := some "wsh" } : MigrationMappings).target_workspace_hash =
      some "wsh" ∧
    (load_from_file MigrationMappings.init
        (save_to_file { MigrationMappings.init with
          users := [(.intK 7, .int 9)],
          target_workspace_hash := some "wsh" })).target_workspace_hash = Option.none :=
  ⟨rfl, rfl, rfl, rfl⟩

/-- C1 amended: the save/load round trip restores every entity-type map up
to key stringification — each reloaded map equals the saved one with every
key (at every nesting level) replaced by its decimal string form, so a
lookup succeeds by the stringified key and never by the original integer
key — and `target_workspace_hash` is always `None` after a reload of a file
written by `save_to_file`, which omits it. -/
theorem save_load_semantics :
    (∀ m : MigrationMappings,
      load_from_file MigrationMappings.init (save_to_file m) =
        { projects := stringifyEntries m.projects
          suites := stringifyEntries m.suites
          cases := stringifyEntries m.cases
          runs := stringifyEntries m.runs
          milestones := stringifyEntries m.milestones
          configurations := stringifyEntries m.configurations
          configuration_groups := stringifyEntries m.configuration_groups
          environments := stringifyEntries m.environments
          shared_steps := stringifyEntries m.shared_steps
          shared_parameters := stringifyEntries m.shared_parameters
          custom_fields := stringifyEntries m.custom_fields
          users := stringifyEntries m.users
          attachments := stringifyEntries m.attachments
          plans := stringifyEntries m.plans
          target_workspace_hash := Option.none }) ∧
    (∀ (d : List (PyKey × PyVal)) (n : Int),
      dictGet (stringifyEntries d) (.intK n) = Option.none) ∧
    (∀ (d : List (PyKey × PyVal)) (n : Int) (v : PyVal),
      (d.map (fun kv => pyKeyStr kv.1)).Nodup →
      (PyKey.intK n, v) ∈ d →
      dictGet (stringifyEntries d) (.strK (toString n)) = some (stringifyVal v)) := by
  refine ⟨fun m => rfl, ?_, ?_⟩
  · intro d n
    induction d with
    | nil => rfl
    | cons kv d' ih =>
      obtain ⟨k, v⟩ := kv
      simpa [stringifyEntries, pyEntriesToJson, jsonEntriesToPy, dictGet, List.find?]
        using ih
  · intro d n v hnodup hmem
    induction d with
    | nil => cases hmem
    | cons kv d' ih =>
      obtain ⟨k₀, v₀⟩ := kv
      by_cases hk : pyKeyStr k₀ = toString n
      · -- the head stringifies to the looked-up key; by Nodup it must be our entry
        rcases List.mem_cons.mp hmem with h | h
        · injection h with h1 h2
          subst h2
          subst h1
          simp [stringifyEntries, stringifyVal, pyEntriesToJson, jsonEntriesToPy,
            dictGet, List.find?, pyKeyStr]
        · exfalso
          have : pyKeyStr (PyKey.intK n) ∈ d'.map (fun kv => pyKeyStr kv.1) :=
            List.mem_map.mpr ⟨(PyKey.intK n, v), h, rfl⟩
          have hn : toString n ∈ d'.map (fun kv => pyKeyStr kv.1) := by
            simpa [pyKeyStr] using this
          rw [List.map_cons, List.nodup_cons] at hnodup
          exact hnodup.1 (hk ▸ hn)
      · have hmem' : (PyKey.intK n, v) ∈ d' := by
          rcases List.mem_cons.mp hmem with h | h
          · exfalso
            injection h with h1 h2
            exact hk (by rw [← h1]; rfl)
          · exact h
        have hnodup' : (d'.map (fun kv => pyKeyStr kv.1)).Nodup := by
          rw [List.map_cons, List.nodup_cons] at hnodup
          exact hnodup.2
        have hne : ¬(PyKey.strK (pyKeyStr k₀) = PyKey.strK (toString n)) := by
          intro hEq
          injection hEq with hEq'
          exact hk hEq'
        simpa [stringifyEntries, pyEntriesToJson, jsonEntriesToPy, dictGet,
          List.find?, hne] using ih hnodup' hmem'

/-- Witness for C1 amended: a singleton integer-keyed users map reloads with
the string key "7": the string lookup succeeds, the integer lookup misses. -/
theorem save_load_semantics_witness :
    dictGet (stringifyEntries [(PyKey.intK 7, PyVal.int 9)]) (.strK (toString (7 : Int))) =
      some (stringifyVal (PyVal.int 9)) ∧
    dictGet (stringifyEntries [(PyKey.intK 7, PyVal.int 9)]) (.intK 7) = Option.none :=
  ⟨save_load_semantics.2.2 [(PyKey.intK 7, PyVal.int 9)] 7 (PyVal.int 9)
      (by simp) (by simp),
   save_load_semantics.2.1 [(PyKey.intK 7, PyVal.int 9)] 7⟩

/-- C8 counterexample: with the mapping
`{"aaa...32": "bbb...32", "bbb...32": "ccc...32"}` a full team URL embedding
the hash `"AAA...32"` (differing from the stored key only in case) is first
rewritten to `"bbb...32"`, but the second substitution pass — which rescans
the output of the first — maps it again to `"ccc...32"`, so the embedded
hash is not replaced by the target hash `t = "bbb...32"` the claim demands. -/
theorem replace_attachment_double_substitution :
    replace_attachment_hashes_in_text
        [("aaaaaaaaaaaaaaaaaaaaaaaaaaaaaaaa", "bbbbbbbbbbbbbbbbbbbbbbbbbbbbbbbb"),
         ("bbbbbbbbbbbbbbbbbbbbbbbbbbbbbbbb", "cccccccccccccccccccccccccccccccc")]
        Option.none
        [TextPart.full "https://app.qase.io/public/team/"
          "dddddddddddddddddddddddddddddddd" "AAAAAAAAAAAAAAAAAAAAAAAAAAAAAAAA"
          "/file.png"] =
      [TextPart.full "https://app.qase.io/public/team/"
        "dddddddddddddddddddddddddddddddd" "cccccccccccccccccccccccccccccccc"
        "/file.png"] ∧
    ("aaaaaaaaaaaaaaaaaaaaaaaaaaaaaaaa", "bbbbbbbbbbbbbbbbbbbbbbbbbbbbbbbb") ∈
      ([("aaaaaaaaaaaaaaaaaaaaaaaaaaaaaaaa", "bbbbbbbbbbbbbbbbbbbbbbbbbbbbbbbb"),
        ("bbbbbbbbbbbbbbbbbbbbbbbbbbbbbbbb", "cccccccccccccccccccccccccccccccc")] :
        List (String × String)) ∧
    pyLower "AAAAAAAAAAAAAAAAAAAAAAAAAAAAAAAA" = "aaaaaaaaaaaaaaaaaaaaaaaaaaaaaaaa" ∧
    "cccccccccccccccccccccccccccccccc" ≠ "bbbbbbbbbbbbbbbbbbbbbbbbbbbbbbbb" := by
  refine ⟨rfl, by simp, rfl, by decide⟩

theorem lookup_hash_case_insensitive (mapping : List (String × String))
    (h t E : String) (hmem : (h, t) ∈ mapping) (hcase : pyLower h = pyLower E)
    (huniq : ∀ kv ∈ mapping, (kv.1 = pyLower E ∨ pyLower kv.1 = pyLower E) → kv.2 = t) :
    lookup_hash mapping (pyLower E) = some t := by
  unfold lookup_hash
  cases hfind : dictGet mapping (pyLower E) with
  | some v =>
    unfold dictGet at hfind
    obtain ⟨kv, hkv, hv⟩ := Option.map_eq_some'.mp hfind
    have hkvmem := List.mem_of_find?_eq_some hkv
    have hpred : kv.1 = pyLower E := by simpa using List.find?_some hkv
    rw [← hv, huniq kv hkvmem (Or.inl hpred)]
  | none =>
    have hfind2 : (mapping.find? (fun kv => pyLower kv.1 = pyLower E)).isSome := by
      rw [List.find?_isSome]
      exact ⟨(h, t), hmem, by simpa using hcase⟩
    obtain ⟨kv, hkv⟩ := Option.isSome_iff_exists.mp hfind2
    have hkvmem := List.mem_of_find?_eq_some hkv
    have hpred : pyLower kv.1 = pyLower E := by simpa using List.find?_some hkv
    simp [hkv, huniq kv hkvmem (Or.inr hpred)]

/-- C8 amended: when the mapping sends every key equal (modulo case) to the
embedded hash to the same target `t`, both passes resolve the lookup
case-insensitively: literal text is untouched, a bare `/attachment/hash/`
reference is rewritten to exactly `t`, and a full team URL is rewritten to
`t` (with the workspace hash swapped when a truthy target workspace hash is
known) provided `t` itself does not resolve through the mapping — otherwise
the second pass substitutes it again, as the counterexample shows. -/
theorem replace_attachment_hash_case_insensitive (mapping : List (String × String))
    (twh : Option String) (h t E : String)
    (hmem : (h, t) ∈ mapping) (hcase : pyLower h = pyLower E)
    (huniq : ∀ kv ∈ mapping, (kv.1 = pyLower E ∨ pyLower kv.1 = pyLower E) → kv.2 = t)
    (hhex : isHexHashTok E = true) :
    (∀ s, replace_hash mapping (replace_full_url mapping twh (.lit s)) = .lit s) ∧
    (replace_hash mapping (replace_full_url mapping twh (.bare E)) = .bare t) ∧
    (∀ pre ws suf, lookup_hash mapping (pyLower t) = Option.none →
      replace_hash mapping (replace_full_url mapping twh (.full pre ws E suf)) =
        .full pre (if strTruthy twh then twh.getD ws else ws) t suf) ∧
    (∀ parts, replace_attachment_hashes_in_text mapping twh parts =
      parts.map (fun p => replace_hash mapping (replace_full_url mapping twh p))) := by
  have hlook : lookup_hash mapping (pyLower E) = some t :=
    lookup_hash_case_insensitive mapping h t E hmem hcase huniq
  refine ⟨fun s => rfl, ?_, ?_, ?_⟩
  · have h1 : replace_full_url mapping twh (.bare E) = .bare E := rfl
    rw [h1]
    simp [replace_hash, hhex, hlook]
  · intro pre ws suf htNone
    have h1 : replace_full_url mapping twh (.full pre ws E suf) =
        .full pre (if strTruthy twh then twh.getD ws else ws) t suf := by
      simp [replace_full_url, hlook]
    rw [h1]
    cases hcond : isHexHashTok t && strStartsWith suf "/" with
    | false => simp [replace_hash, hcond]
    | true => simp [replace_hash, hcond, htNone]
  · intro parts
    have hne : mapping.isEmpty = false := by
      cases mapping with
      | nil => cases hmem
      | cons a l => rfl
    simp [replace_attachment_hashes_in_text, hne, List.map_map, Function.comp]

/-- Witness for C8 amended: the singleton mapping with lowercase key
resolves an uppercase embedded hash in both URL shapes. -/
theorem replace_attachment_hash_case_insensitive_witness :
    replace_hash [("aaaaaaaaaaaaaaaaaaaaaaaaaaaaaaaa", "bbbbbbbbbbbbbbbbbbbbbbbbbbbbbbbb")]
        (replace_full_url
          [("aaaaaaaaaaaaaaaaaaaaaaaaaaaaaaaa", "bbbbbbbbbbbbbbbbbbbbbbbbbbbbbbbb")]
          Option.none (.bare "AAAAAAAAAAAAAAAAAAAAAAAAAAAAAAAA")) =
      .bare "bbbbbbbbbbbbbbbbbbbbbbbbbbbbbbbb" ∧
    replace_hash [("aaaaaaaaaaaaaaaaaaaaaaaaaaaaaaaa", "bbbbbbbbbbbbbbbbbbbbbbbbbbbbbbbb")]
        (replace_full_url
          [("aaaaaaaaaaaaaaaaaaaaaaaaaaaaaaaa", "bbbbbbbbbbbbbbbbbbbbbbbbbbbbbbbb")]
          Option.none
          (.full "https://app.qase.io/public/team/" "dddddddddddddddddddddddddddddddd"
            "AAAAAAAAAAAAAAAAAAAAAAAAAAAAAAAA" "/file.png")) =
      .full "https://app.qase.io/public/team/" "dddddddddddddddddddddddddddddddd"
        "bbbbbbbbbbbbbbbbbbbbbbbbbbbbbbbb" "/file.png" :=
  ⟨(replace_attachment_hash_case_insensitive
      [("aaaaaaaaaaaaaaaaaaaaaaaaaaaaaaaa", "bbbbbbbbbbbbbbbbbbbbbbbbbbbbbbbb")]
      Option.none "aaaaaaaaaaaaaaaaaaaaaaaaaaaaaaaa" "bbbbbbbbbbbbbbbbbbbbbbbbbbbbbbbb"
      "AAAAAAAAAAAAAAAAAAAAAAAAAAAAAAAA" (by simp) rfl
      (fun kv hkv hor => by rw [List.mem_singleton.mp hkv]) rfl).2.1,
   (replace_attachment_hash_case_insensitive
      [("aaaaaaaaaaaaaaaaaaaaaaaaaaaaaaaa", "bbbbbbbbbbbbbbbbbbbbbbbbbbbbbbbb")]
      Option.none "aaaaaaaaaaaaaaaaaaaaaaaaaaaaaaaa" "bbbbbbbbbbbbbbbbbbbbbbbbbbbbbbbb"
      "AAAAAAAAAAAAAAAAAAAAAAAAAAAAAAAA" (by simp) rfl
      (fun kv hkv hor => by rw [List.mem_singleton.mp hkv]) rfl).2.2.1
     "https://app.qase.io/public/team/" "dddddddddddddddddddddddddddddddd" "/file.png" rfl⟩

end QaseMigration
